import Mathlib

/-!
Shallow embedding of the clanka-api worker core (src/index.ts, the current
generation) and proofs about it.

Conventions of the embedding:
* JavaScript strings are Lean `String`s.  The JS string operations used by the
  worker (`toLowerCase`, `trim`, `includes`, `startsWith`) are re-implemented
  structurally over the underlying character list so that the kernel can
  evaluate them; case folding is ASCII, which covers every string the worker
  compares (CI conclusions, route paths, enum tags).
* JavaScript numbers that the worker reads from `Date.now()`, rate-limit
  windows and epoch timestamps are integral in every state the worker itself
  writes; they are modelled as `ℤ`, with `Option ℤ` where the code has to
  guard against `NaN` / `Infinity` / non-numbers (`none` models a value that
  fails `Number.isFinite` or is not a number at all).  Values that can be
  genuinely fractional (JSON payload numbers, the `?limit=` query parameter)
  are modelled as `ℚ`.
* JSON values are modelled by the inductive `Json`; a `KVNamespace.get`
  result that is absent or fails `JSON.parse` is modelled as `none` at the
  call sites that use `safeParseJSON` / `try JSON.parse`.
* `Array.prototype.sort` (stable, comparator-driven) is modelled by the
  stable insertion sort `jsSortBy`; `localeCompare` on the ASCII repo slugs
  is modelled by code-point lexicographic comparison.
-/

namespace Clanka

/-- ASCII case folding for one character, the fragment of
`String.prototype.toLowerCase` exercised by the worker's inputs. -/
def charToLower (c : Char) : Char :=
  if 65 ≤ c.toNat ∧ c.toNat ≤ 90 then Char.ofNat (c.toNat + 32) else c

/-- `s.toLowerCase()` (ASCII fragment), structural so the kernel can run it. -/
def jsToLower (s : String) : String :=
  ⟨s.data.map charToLower⟩

/-- Whitespace test used by `String.prototype.trim` (ASCII fragment). -/
def jsIsWs (c : Char) : Bool :=
  c == ' ' || c == '\t' || c == '\n' || c == '\r'

/-- `s.trim()`: drop leading and trailing whitespace. -/
def jsTrim (s : String) : String :=
  ⟨((s.data.dropWhile jsIsWs).reverse.dropWhile jsIsWs).reverse⟩

/-- `s.includes(c)` for a single-character needle. -/
def jsIncludes (s : String) (c : Char) : Bool :=
  s.data.any (fun d => d == c)

/-- Structural prefix test on character lists. -/
def charsPrefixOf : List Char → List Char → Bool
  | [], _ => true
  | _ :: _, [] => false
  | a :: as, b :: bs => a == b && charsPrefixOf as bs

/-- `s.startsWith(p)`. -/
def jsStartsWith (s p : String) : Bool :=
  charsPrefixOf p.data s.data

/-- Code-point lexicographic `≤` on character lists; this models
`a.localeCompare(b) ≤ 0` on the ASCII repo identifiers the worker sorts. -/
def charListLe : List Char → List Char → Bool
  | [], _ => true
  | _ :: _, [] => false
  | a :: as, b :: bs =>
    if a.toNat < b.toNat then true
    else if b.toNat < a.toNat then false
    else charListLe as bs

/-- `localeCompare`-style `≤` on strings (ASCII, code-point order). -/
def localeLe (a b : String) : Bool :=
  charListLe a.data b.data

/-- One step of a stable insertion sort: insert `a` after every element `b`
of the (already sorted) list with `le b a`. -/
def insertSorted (le : α → α → Bool) (a : α) : List α → List α
  | [] => [a]
  | b :: bs => if le b a then b :: insertSorted le a bs else a :: b :: bs

/-- Stable sort by a boolean comparator; models `Array.prototype.sort`
(which is stable) with an antisymmetric comparator. -/
def jsSortBy (le : α → α → Bool) (l : List α) : List α :=
  l.foldl (fun acc x => insertSorted le x acc) []

/-- JSON values, the image of `JSON.parse`.  `obj` keeps fields in order;
keys are unique in every value the worker produces or consumes. -/
inductive Json where
  | null
  | bool (b : Bool)
  | num (q : ℚ)
  | str (s : String)
  | arr (items : List Json)
  | obj (fields : List (String × Json))

/-- Field lookup on a JSON object (`item.key`); `none` models `undefined`. -/
def jsonField (fields : List (String × Json)) (key : String) : Option Json :=
  (fields.find? (fun p => p.1 == key)).map (fun p => p.2)

/-! ### Fleet data model (`src/index.ts` type aliases) -/

inductive FleetTier where
  | ops | infra | core | quality | policy | template
  deriving DecidableEq

inductive FleetCriticality where
  | critical | high | medium
  deriving DecidableEq

inductive FleetHealthStatus where
  | GREEN | YELLOW | RED | UNKNOWN
  deriving DecidableEq

inductive FleetTrendDirection where
  | up | down | flat | unknown
  deriving DecidableEq

structure RegistryEntry where
  repo : String
  criticality : FleetCriticality
  tier : FleetTier
  description : String
  deriving DecidableEq

structure FleetRepoHealth where
  repo : String
  criticality : FleetCriticality
  lastRun : Option String
  conclusion : String
  deriving DecidableEq

/-- `FleetHealthPayload`; `checkedAt` stores the result of
`Date.parse(payload.checkedAt)` (`none` = not parseable as a date). -/
structure FleetHealthPayload where
  status : FleetHealthStatus
  repos : List FleetRepoHealth
  checkedAt : Option ℤ
  deriving DecidableEq

/-- The worker's `GithubWorkflowRun` record (after `parseWorkflowRun`). -/
structure GithubWorkflowRun where
  conclusion : Option String
  status : Option String
  name : Option String
  updatedAt : Option String
  deriving DecidableEq

/-! ### 4.3 Health Aggregator (`deriveRepoHealthStatus`,
`deriveFleetHealthStatus`, `toFleetRepoHealth`, `isFleetHealthFresh`) -/

/-- `fleetStatusSeverity` from the source: RED 3, YELLOW 2, GREEN 1,
UNKNOWN 0. -/
def fleetStatusSeverity : FleetHealthStatus → ℕ
  | .RED => 3
  | .YELLOW => 2
  | .GREEN => 1
  | .UNKNOWN => 0

/-- `deriveRepoHealthStatus` from the source, verbatim branch order:
success → GREEN; the failure family → RED; `"unknown"` → UNKNOWN;
anything else → YELLOW. -/
def deriveRepoHealthStatus (repo : FleetRepoHealth) : FleetHealthStatus :=
  let conclusion := jsToLower repo.conclusion
  if conclusion = "success" then .GREEN
  else if conclusion = "failure" ∨ conclusion = "cancelled"
      ∨ conclusion = "timed_out" ∨ conclusion = "action_required"
      ∨ conclusion = "startup_failure" ∨ conclusion = "stale" then .RED
  else if conclusion = "unknown" then .UNKNOWN
  else .YELLOW

/-- The `for` loop of `deriveFleetHealthStatus`, with its early `break`
once `result` is RED. -/
def deriveFleetHealthStatusAux : List FleetRepoHealth → FleetHealthStatus → FleetHealthStatus
  | [], result => result
  | repo :: rest, result =>
    let status := deriveRepoHealthStatus repo
    let result' := if fleetStatusSeverity status > fleetStatusSeverity result then status else result
    if result' = .RED then result' else deriveFleetHealthStatusAux rest result'

/-- `deriveFleetHealthStatus` from the source. -/
def deriveFleetHealthStatus (repos : List FleetRepoHealth) : FleetHealthStatus :=
  if repos = [] then .UNKNOWN else deriveFleetHealthStatusAux repos .UNKNOWN

/-- `toFleetRepoHealth` from the source.  A `null` conclusion is serialized
to the literal string `"null"`; a missing run or missing conclusion becomes
`"unknown"`; without a GitHub token the conclusion is forced to
`"unknown"`. -/
def toFleetRepoHealth (entry : RegistryEntry) (run : Option GithubWorkflowRun)
    (hasGithubToken : Bool) : FleetRepoHealth :=
  let conclusion :=
    if !hasGithubToken then "unknown"
    else match run with
      | none => "unknown"
      | some r => match r.conclusion with
        | none => "null"
        | some c => if c = "" then "unknown" else c
  let lastRun := match run with
    | none => none
    | some r => match r.updatedAt with
      | none => none
      | some u => if u = "" then none else some u
  { repo := entry.repo, criticality := entry.criticality
    lastRun := lastRun, conclusion := conclusion }

/-- The spec's severity table as amended: `success → GREEN`;
`"unknown"` → UNKNOWN; the failure family → RED; anything else — including
the serialized-`null` conclusion `"null"`, `in_progress`, `neutral`,
`skipped` — → YELLOW. -/
def specConclusionSeverity (conclusion : String) : FleetHealthStatus :=
  if conclusion = "success" then .GREEN
  else if conclusion = "unknown" then .UNKNOWN
  else if conclusion = "failure" ∨ conclusion = "cancelled"
      ∨ conclusion = "timed_out" ∨ conclusion = "action_required"
      ∨ conclusion = "startup_failure" ∨ conclusion = "stale" then .RED
  else .YELLOW

/-! ### 4.7 Presence/Offline Detector (`getStatusPayload`) -/

/-- `STATUS_OFFLINE_THRESHOLD_MS = 10 * 60 * 1000`. -/
def STATUS_OFFLINE_THRESHOLD_MS : ℤ := 10 * 60 * 1000

/-- The status string computed by `getStatusPayload`.  `lastSeen` is the
result of `Number(lastSeenRaw)` (`none` models a missing key or a
non-finite parse, the `!Number.isFinite(lastSeen)` guard). -/
def getStatusPayload (now : ℤ) (lastSeen : Option ℤ) : String :=
  match lastSeen with
  | none => "offline"
  | some t => if now - t > STATUS_OFFLINE_THRESHOLD_MS then "offline" else "operational"

/-! ### 4.2 Rate Limiter (`checkRateLimit`) -/

/-- `RATE_LIMIT_WINDOW_MS = 60 * 1000`. -/
def RATE_LIMIT_WINDOW_MS : ℤ := 60 * 1000

/-- The current value of the limit constant in the source
(`src/index.ts` line 89). -/
def RATE_LIMIT_MAX_REQUESTS : ℤ := 10

/-- A persisted rate-limit window as read back from KV.  A field is `none`
when the stored value is missing, not a number, or fails
`Number.isFinite`; every value the worker itself writes is integral. -/
structure RateLimitState where
  count : Option ℤ
  resetAt : Option ℤ

structure RateLimitResult where
  allowed : Bool
  retryAfter : ℤ
  persistedCount : ℤ
  persistedResetAt : ℤ
  deriving DecidableEq

/-- `Math.ceil(a / b)` for integers with `b > 0`, as the worker computes
`Math.ceil((resetAt - now) / 1000)`. -/
def jsCeilDiv (a b : ℤ) : ℤ :=
  -((-a).ediv b)

/-- `checkRateLimit` from the source: an absent, corrupt, or expired window
is replaced by `{count: 0, resetAt: now + RATE_LIMIT_WINDOW_MS}`; at or
above the limit the window is persisted unchanged and the request is
rejected with `retryAfter = max(1, ceil((resetAt - now)/1000))`; otherwise
the count is incremented and persisted (TTL 60s) and the request is
allowed. -/
def checkRateLimit (now : ℤ) (raw : Option RateLimitState) : RateLimitResult :=
  let state := raw.getD { count := some 0, resetAt := some (now + RATE_LIMIT_WINDOW_MS) }
  let hasWindow : Bool := match state.resetAt with
    | some r => decide (r > now)
    | none => false
  let validState : Bool := match state.count with
    | some c => decide (c ≥ 0)
    | none => false
  let current : ℤ × ℤ :=
    if validState && hasWindow then (state.count.getD 0, state.resetAt.getD 0)
    else (0, now + RATE_LIMIT_WINDOW_MS)
  if current.1 ≥ RATE_LIMIT_MAX_REQUESTS then
    { allowed := false, retryAfter := max 1 (jsCeilDiv (current.2 - now) 1000)
      persistedCount := current.1, persistedResetAt := current.2 }
  else
    { allowed := true, retryAfter := max 1 (jsCeilDiv (current.2 - now) 1000)
      persistedCount := current.1 + 1, persistedResetAt := current.2 }

/-- The persisted window after `n` consecutive `checkRateLimit` calls from
one client starting from an absent window (`none`), all at time `now` —
the sequential read-back of each call's write. -/
def rlIterate (now : ℤ) : ℕ → Option RateLimitState
  | 0 => none
  | n + 1 =>
    let res := checkRateLimit now (rlIterate now n)
    some { count := some res.persistedCount, resetAt := some res.persistedResetAt }

/-! ### 4.4 Trend Analyzer (`trendScore`, `average`, `deriveTrendDirection`) -/

/-- `trendScore` from the source. -/
def trendScore (conclusion : String) : ℕ :=
  let normalized := jsToLower (jsTrim conclusion)
  if normalized = "success" then 2
  else if normalized = "neutral" ∨ normalized = "skipped" then 1
  else if normalized = "failure" ∨ normalized = "cancelled"
      ∨ normalized = "timed_out" ∨ normalized = "action_required"
      ∨ normalized = "startup_failure" ∨ normalized = "stale" then 0
  else 1

/-- `average` from the source (`0` on the empty list, otherwise sum divided
by length). -/
def average (values : List ℚ) : ℚ :=
  if values = [] then 0 else values.sum / values.length

/-- `Math.ceil(n / 2)` on a natural number, as the source computes the
half-split point. -/
def natCeilHalf (n : ℕ) : ℕ := (n + 1) / 2

/-- `deriveTrendDirection` from the source. -/
def deriveTrendDirection (conclusions : List String) : FleetTrendDirection :=
  if conclusions = [] then .unknown
  else if conclusions.length = 1 then .flat
  else
    let scores := conclusions.map trendScore
    let newest := scores.headD 0
    let oldest := scores.getLastD 0
    if newest > oldest then .up
    else if newest < oldest then .down
    else
      let split := natCeilHalf scores.length
      let recentAverage := average ((scores.take split).map (fun n => (n : ℚ)))
      let olderAverage := average ((scores.drop split).map (fun n => (n : ℚ)))
      if recentAverage > olderAverage then .up
      else if recentAverage < olderAverage then .down
      else .flat

/-- The Trend Analyzer as the spec words it: score the conclusions, compare
newest to oldest score, and on a tie compare the average of the
`⌈n/2⌉` newest scores (a genuine rational ceiling) with the average of the
remainder; equal averages resolve to `flat`. -/
def specTrendDirection (conclusions : List String) : FleetTrendDirection :=
  if conclusions.length = 0 then .unknown
  else if conclusions.length = 1 then .flat
  else
    let scores := conclusions.map trendScore
    let newest := scores.headD 0
    let oldest := scores.getLastD 0
    if newest > oldest then .up
    else if newest < oldest then .down
    else
      let split := (⌈(scores.length : ℚ) / 2⌉).toNat
      let recentAverage := average ((scores.take split).map (fun n => (n : ℚ)))
      let olderAverage := average ((scores.drop split).map (fun n => (n : ℚ)))
      if recentAverage > olderAverage then .up
      else if recentAverage < olderAverage then .down
      else .flat

/-! ### Registry extraction (`normalizeRegistryEntry`,
`extractRegistryEntries`, `loadRegistryEntries`) -/

def fleetTierName : FleetTier → String
  | .ops => "ops"
  | .infra => "infra"
  | .core => "core"
  | .quality => "quality"
  | .policy => "policy"
  | .template => "template"

def fleetCriticalityName : FleetCriticality → String
  | .critical => "critical"
  | .high => "high"
  | .medium => "medium"

/-- `isFleetCriticality` as a partial parse: the value must be one of the
three literal strings. -/
def parseFleetCriticality : Option Json → Option FleetCriticality
  | some (.str s) =>
    if s = "critical" then some .critical
    else if s = "high" then some .high
    else if s = "medium" then some .medium
    else none
  | _ => none

/-- `isFleetTier` as a partial parse. -/
def parseFleetTier : Option Json → Option FleetTier
  | some (.str s) =>
    if s = "ops" then some .ops
    else if s = "infra" then some .infra
    else if s = "core" then some .core
    else if s = "quality" then some .quality
    else if s = "policy" then some .policy
    else if s = "template" then some .template
    else none
  | _ => none

/-- `normalizeRegistryEntry` from the source: the value must be a plain
object with a trimmed `repo` containing `/` and valid criticality and tier;
a blank description defaults to ``"<tier> tool - <criticality>
criticality"``. -/
def normalizeRegistryEntry : Json → Option RegistryEntry
  | .obj fields =>
    let repo := match jsonField fields "repo" with
      | some (.str s) => jsTrim s
      | _ => ""
    if repo = "" ∨ jsIncludes repo '/' = false then none
    else
      match parseFleetCriticality (jsonField fields "criticality"),
            parseFleetTier (jsonField fields "tier") with
      | some crit, some tier =>
        let defaultDescription :=
          fleetTierName tier ++ " tool - " ++ fleetCriticalityName crit ++ " criticality"
        let description := match jsonField fields "description" with
          | some (.str d) => if jsTrim d = "" then defaultDescription else jsTrim d
          | _ => defaultDescription
        some { repo := repo, criticality := crit, tier := tier, description := description }
      | _, _ => none
  | _ => none

/-- The array the extractor iterates over: the payload itself when it is an
array, else the first of `tools` / `registry` / `entries` that is an
array, else nothing. -/
def registrySource : Json → List Json
  | .arr items => items
  | .obj fields =>
    match jsonField fields "tools" with
    | some (.arr items) => items
    | _ =>
      match jsonField fields "registry" with
      | some (.arr items) => items
      | _ =>
        match jsonField fields "entries" with
        | some (.arr items) => items
        | _ => []
  | _ => []

/-- The normalize-and-dedupe loop of `extractRegistryEntries`: `seen` is the
set of lower-cased repo identities already kept; the first occurrence
wins. -/
def collectRegistryEntries : List Json → List String → List RegistryEntry
  | [], _ => []
  | item :: rest, seen =>
    match normalizeRegistryEntry item with
    | none => collectRegistryEntries rest seen
    | some entry =>
      let key := jsToLower entry.repo
      if key ∈ seen then collectRegistryEntries rest seen
      else entry :: collectRegistryEntries rest (key :: seen)

/-- `extractRegistryEntries` from the source: normalize, dedupe by
case-insensitive repo (first occurrence wins), then sort by
`repo.localeCompare`. -/
def extractRegistryEntries (payload : Json) : List RegistryEntry :=
  jsSortBy (fun a b => localeLe a.repo b.repo)
    (collectRegistryEntries (registrySource payload) [])

/-- The normalized entry stream before deduplication, used to state the
first-occurrence-wins property. -/
def registryEntryStream (payload : Json) : List RegistryEntry :=
  (registrySource payload).filterMap normalizeRegistryEntry

/-- Outcome of the upstream registry fetch inside `loadRegistryEntries`'
`try` block: `notOk` is a non-2xx response, `noContent` a 2xx response
whose `content` field is missing or empty, `threw` a network error or any
other exception, and `content d` a 2xx response with base64 content whose
decoded text parses to `d` (`none` when `JSON.parse` throws). -/
inductive RegistryUpstream where
  | notOk
  | noContent
  | threw
  | content (decoded : Option Json)

/-- Does the upstream outcome count as a failure (anything except a decoded
payload)? -/
def registryUpstreamFailed : RegistryUpstream → Bool
  | .content (some _) => false
  | _ => true

/-- A KV `put` performed by the registry loader. -/
structure RegistryWrite where
  key : String
  entries : List RegistryEntry
  ttlSeconds : ℕ
  deriving DecidableEq

def REGISTRY_CACHE_KEY : String := "registry:v1"
def REGISTRY_STALE_CACHE_KEY : String := "registry:v1:stale"
def REGISTRY_TTL_SEC : ℕ := 3600
def REGISTRY_STALE_TTL_SEC : ℕ := 7 * 24 * 60 * 60

/-- `loadRegistryEntries` from the source as a pure function of the parsed
primary cache value, the upstream outcome, and the parsed stale cache
value (`none` models a missing key or a `JSON.parse` failure, exactly the
cases where `parseRegistryEntries` returns `null`).  The second component
lists the KV writes performed. -/
def loadRegistryEntries (primary : Option Json) (upstream : RegistryUpstream)
    (stale : Option Json) : List RegistryEntry × List RegistryWrite :=
  match primary with
  | some p => (extractRegistryEntries p, [])
  | none =>
    let staleEntries := stale.map extractRegistryEntries
    match upstream with
    | .notOk => (staleEntries.getD [], [])
    | .noContent => (staleEntries.getD [], [])
    | .threw => (staleEntries.getD [], [])
    | .content none => (staleEntries.getD [], [])
    | .content (some decoded) =>
      let entries := extractRegistryEntries decoded
      (entries,
        [{ key := REGISTRY_CACHE_KEY, entries := entries, ttlSeconds := REGISTRY_TTL_SEC },
         { key := REGISTRY_STALE_CACHE_KEY, entries := entries, ttlSeconds := REGISTRY_STALE_TTL_SEC }])

/-! ### 4.5 History Ring Buffer (`makeHistoryHash`, `toHistoryEntry`,
`normalizeHistory`, the `/history` read and the `/set-presence` append) -/

def HISTORY_LIMIT : ℕ := 20

/-- `HistoryEntry`; timestamps are JSON numbers (epoch milliseconds), kept
as `ℚ` because stored payloads may carry arbitrary numbers. -/
structure HistoryEntry where
  timestamp : ℚ
  desc : String
  type : String
  hash : String

/-- `Math.floor(x).toString(16)` for the non-negative timestamps the worker
derives hashes from, then `.slice(-8)`: the last (at most) 8 hex digits.
Negative floors keep JavaScript's leading minus sign. -/
def makeHistoryHash (timestamp : ℚ) : String :=
  let i := ⌊timestamp⌋
  let digits : List Char :=
    if i < 0 then '-' :: Nat.toDigits 16 i.natAbs else Nat.toDigits 16 i.toNat
  ⟨(digits.reverse.take 8).reverse⟩

/-- `toHistoryEntry` from the source: a non-object becomes the default
`{desc: "activity", type: "event"}` entry at the fallback timestamp; an
object keeps a finite numeric `timestamp`, a string `desc` (falling back
to `message`, then `"activity"`), a string `type` (default `"event"`), and
a non-empty string `hash` (else derived from the timestamp). -/
def toHistoryEntry (value : Json) (fallbackTimestamp : ℚ) : HistoryEntry :=
  match value with
  | .obj fields =>
    let timestamp := match jsonField fields "timestamp" with
      | some (.num q) => q
      | _ => fallbackTimestamp
    let desc := match jsonField fields "desc" with
      | some (.str s) => s
      | _ => match jsonField fields "message" with
        | some (.str s) => s
        | _ => "activity"
    let type := match jsonField fields "type" with
      | some (.str s) => s
      | _ => "event"
    let hash := match jsonField fields "hash" with
      | some (.str s) => if s = "" then makeHistoryHash timestamp else s
      | _ => makeHistoryHash timestamp
    { timestamp := timestamp, desc := desc, type := type, hash := hash }
  | _ =>
    { timestamp := fallbackTimestamp, desc := "activity", type := "event"
      hash := makeHistoryHash fallbackTimestamp }

/-- `normalizeHistory` from the source: a non-array persisted value becomes
`[]`; otherwise the first 20 elements are renormalized, entry `i` falling
back to timestamp `now - i`. -/
def normalizeHistory (now : ℚ) (history : Json) : List HistoryEntry :=
  match history with
  | .arr items =>
    (items.take HISTORY_LIMIT).mapIdx (fun i e => toHistoryEntry e (now - i))
  | _ => []

/-- Parsing of the `?limit=` query parameter on `/history`:
`Number(url.searchParams.get("limit"))` followed by
`Number.isFinite(rawLimit) && rawLimit > 0 ? min(20, floor(rawLimit)) : 20`.
`none` models a `NaN`/infinite parse; an absent parameter arrives as
`some 0` because `Number(null) = 0`. -/
def parseHistoryLimit (rawLimit : Option ℚ) : ℕ :=
  match rawLimit with
  | none => HISTORY_LIMIT
  | some q => if q > 0 then min HISTORY_LIMIT (⌊q⌋).toNat else HISTORY_LIMIT

/-- The comparator of the `/history` read's sort,
`(a, b) => b.timestamp - a.timestamp`: `a` may stay before `b` iff
`b.timestamp ≤ a.timestamp`. -/
def historySortLe (a b : HistoryEntry) : Bool :=
  decide (b.timestamp ≤ a.timestamp)

/-- The `/history` read path: reparse every stored element (entry `i`
falling back to timestamp `now - i`), sort by timestamp descending, then
truncate to the parsed limit. -/
def readHistory (now : ℚ) (stored : Json) (rawLimit : Option ℚ) : List HistoryEntry :=
  let source := match stored with
    | .arr items => items
    | _ => []
  let entries := source.mapIdx (fun i e => toHistoryEntry e (now - i))
  (jsSortBy historySortLe entries).take (parseHistoryLimit rawLimit)

/-- Serialization of a history entry back to the persisted JSON shape. -/
def historyEntryToJson (e : HistoryEntry) : Json :=
  .obj [("timestamp", .num e.timestamp), ("desc", .str e.desc),
        ("type", .str e.type), ("hash", .str e.hash)]

/-- The `/set-presence` history append: renormalize the stored list,
prepend the new activity entry, truncate to the most recent 20, persist. -/
def appendPresenceHistory (now : ℚ) (stored : Json) (activity : Json) : List HistoryEntry :=
  (toHistoryEntry activity now :: normalizeHistory now stored).take HISTORY_LIMIT

/-- The persisted history after a sequence of `/set-presence` appends
starting from an empty store, each append reading back the previous
write. -/
def appendedHistoryState (now : ℚ) (activities : List Json) : List HistoryEntry :=
  activities.foldl
    (fun state activity =>
      appendPresenceHistory now (.arr (state.map historyEntryToJson)) activity)
    []

/-! ### 4.6 Metrics Reconciler (`toCounter`, `parseMetricsState`,
`mergeMetricsState`, `incrementMetrics`) -/

structure MetricsState where
  requests_total : ℕ
  kv_hits : ℕ
  kv_misses : ℕ
  deriving DecidableEq

/-- `toCounter` from the source: non-numbers, non-finite values and
negatives collapse to 0, everything else is floored. -/
def toCounter : Option Json → ℕ
  | some (.num q) => if q < 0 then 0 else (⌊q⌋).toNat
  | _ => 0

/-- `parseMetricsState` from the source; `none` models a missing key or a
`JSON.parse` failure, and any non-object parse also yields the zero
state. -/
def parseMetricsState : Option Json → MetricsState
  | some (.obj fields) =>
    { requests_total := toCounter (jsonField fields "requests_total")
      kv_hits := toCounter (jsonField fields "kv_hits")
      kv_misses := toCounter (jsonField fields "kv_misses") }
  | _ => { requests_total := 0, kv_hits := 0, kv_misses := 0 }

/-- `mergeMetricsState` from the source: element-wise maximum. -/
def mergeMetricsState (a b : MetricsState) : MetricsState :=
  { requests_total := max a.requests_total b.requests_total
    kv_hits := max a.kv_hits b.kv_hits
    kv_misses := max a.kv_misses b.kv_misses }

/-- The state `incrementMetrics` persists on its successful path: the
element-wise max of the in-memory counters and the reconstructed persisted
counters advanced by this request (`hasRaw` is
`typeof raw === "string" && raw.length > 0`). -/
def incrementMetricsWrite (inMemory : MetricsState) (hasRaw : Bool)
    (raw : Option Json) : MetricsState :=
  let persisted := parseMetricsState raw
  mergeMetricsState inMemory
    { requests_total := persisted.requests_total + 1
      kv_hits := persisted.kv_hits + (if hasRaw then 1 else 0)
      kv_misses := persisted.kv_misses + (if hasRaw then 0 else 1) }

/-- Serialization of the metrics state as `incrementMetrics` persists it. -/
def metricsStateToJson (m : MetricsState) : Json :=
  .obj [("requests_total", .num m.requests_total),
        ("kv_hits", .num m.kv_hits),
        ("kv_misses", .num m.kv_misses)]

/-- Element-wise order on metrics states. -/
def metricsLe (a b : MetricsState) : Prop :=
  a.requests_total ≤ b.requests_total ∧ a.kv_hits ≤ b.kv_hits ∧ a.kv_misses ≤ b.kv_misses

/-! ### The `/fleet/health` endpoint branch (`isFleetHealthFresh` and the
`fetch` handler's cache / recompute / stale / 503 decision) -/

def FLEET_HEALTH_TTL_MS : ℤ := 5 * 60 * 1000

/-- `isFleetHealthFresh` from the source; `payload.checkedAt` already holds
the `Date.parse` result (`none` = `NaN`). -/
def isFleetHealthFresh (now : ℤ) (payload : FleetHealthPayload) : Bool :=
  match payload.checkedAt with
  | none => false
  | some checkedAtMs => decide (now - checkedAtMs < FLEET_HEALTH_TTL_MS)

/-- Outcome of `loadFleetHealthFromGithub`: either a fresh snapshot or a
thrown upstream error. -/
inductive FleetHealthUpstream where
  | ok (payload : FleetHealthPayload)
  | threw

/-- Response of the `/fleet/health` GET branch as a function of the parsed
cached snapshot (`none` = missing or unparseable), the upstream
aggregation outcome, and the clock: HTTP status, body, and whether the
aggregation was attempted at all. -/
structure FleetHealthResponse where
  status : ℕ
  body : Option FleetHealthPayload
  recomputed : Bool
  deriving DecidableEq

/-- The `/fleet/health` branch of the `fetch` handler: a fresh parseable
cached snapshot is returned as-is; otherwise the aggregation runs, and on
a throw the (possibly stale) cached snapshot is served, with 503 only when
no cached snapshot parsed at all. -/
def fleetHealthResponse (now : ℤ) (cached : Option FleetHealthPayload)
    (upstream : FleetHealthUpstream) : FleetHealthResponse :=
  match cached with
  | some payload =>
    if isFleetHealthFresh now payload then
      { status := 200, body := some payload, recomputed := false }
    else
      match upstream with
      | .ok fresh => { status := 200, body := some fresh, recomputed := true }
      | .threw => { status := 200, body := some payload, recomputed := true }
  | none =>
    match upstream with
    | .ok fresh => { status := 200, body := some fresh, recomputed := true }
    | .threw => { status := 503, body := none, recomputed := true }

/-! ### The rate-limit gate of the `fetch` handler (`isTestEnvironment`,
`isPublicGetEndpoint`, the 429 short-circuit) -/

/-- `isPublicGetEndpoint` from the source. -/
def isPublicGetEndpoint (pathname : String) : Bool :=
  !(pathname == "/set-presence") && !(pathname == "/metrics")
    && !(jsStartsWith pathname "/admin")

/-- `isTestEnvironment` from the source: `procEnv` models
`globalThis.process?.env` as `none` (no process/env object) or the pair of
`env.VITEST` and `env.NODE_ENV`. -/
def isTestEnvironment (procEnv : Option (Option String × Option String)) : Bool :=
  match procEnv with
  | none => false
  | some (vitest, nodeEnv) => vitest == some "true" || nodeEnv == some "test"

/-- The non-rate-limit outcomes of the route dispatch; every other response
the worker builds carries one of these status codes. -/
inductive RouteOutcome where
  | ok | badRequest | unauthorized | notFound | methodNotAllowed | serviceUnavailable
  deriving DecidableEq

def routeStatus : RouteOutcome → ℕ
  | .ok => 200
  | .badRequest => 400
  | .unauthorized => 401
  | .notFound => 404
  | .methodNotAllowed => 405
  | .serviceUnavailable => 503

/-- Is the rate limiter consulted for this request?  This is the guard on
the 429 branch of the `fetch` handler: a GET to a public endpoint outside
a test environment. -/
def rateLimitConsulted (method pathname : String)
    (procEnv : Option (Option String × Option String)) : Bool :=
  method == "GET" && isPublicGetEndpoint pathname && !isTestEnvironment procEnv

/-- The status code produced by the `fetch` handler: the rate-limit gate
may short-circuit to 429, otherwise the dispatched route's status is
returned. -/
def workerResponseStatus (method pathname : String)
    (procEnv : Option (Option String × Option String)) (now : ℤ)
    (rlState : Option RateLimitState) (route : RouteOutcome) : ℕ :=
  if rateLimitConsulted method pathname procEnv then
    if (checkRateLimit now rlState).allowed then routeStatus route else 429
  else routeStatus route

/-! ### The `/changelog` read path (`normalizeChangelogEntry`,
`parseChangelogEntries`, `loadChangelog` and the `/changelog` branch).
Unlike `loadRegistryEntries`, `loadChangelog` awaits its upstream `fetch`
(and `res.json()`) outside any `try`/`catch`, so a network-level rejection
propagates out of the worker's `fetch` handler (whose only `try` wraps
`logRequest`); that propagation is modelled as `Except.error`. -/

structure ChangelogEntry where
  sha : String
  message : String
  author : String
  date : String
  deriving DecidableEq

/-- `normalizeChangelogEntry` from the source.  `nowIso` models the
`new Date().toISOString()` fallback for a missing commit date. -/
def normalizeChangelogEntry (nowIso : String) : Json → Option ChangelogEntry
  | .obj fields =>
    let directSha := match jsonField fields "sha" with
      | some (.str s) => jsTrim s
      | _ => ""
    let directMessage := match jsonField fields "message" with
      | some (.str s) => s
      | _ => ""
    let directAuthor := match jsonField fields "author" with
      | some (.str s) => s
      | _ => ""
    let directDate := match jsonField fields "date" with
      | some (.str s) => s
      | _ => ""
    if directSha ≠ "" ∧ directMessage ≠ "" ∧ directAuthor ≠ "" ∧ directDate ≠ "" then
      some { sha := directSha, message := directMessage
             author := directAuthor, date := directDate }
    else
      let commitFields := match jsonField fields "commit" with
        | some (.obj cf) => some cf
        | _ => none
      let commitAuthorFields := match commitFields with
        | some cf => match jsonField cf "author" with
          | some (.obj caf) => some caf
          | _ => none
        | none => none
      let commitCommitterFields := match commitFields with
        | some cf => match jsonField cf "committer" with
          | some (.obj ccf) => some ccf
          | _ => none
        | none => none
      let message := match commitFields with
        | some cf => match jsonField cf "message" with
          | some (.str s) => s
          | _ => ""
        | none => ""
      let author := match jsonField fields "author" with
        | some (.obj af) =>
          match jsonField af "login" with
          | some (.str login) => login
          | _ => match commitAuthorFields with
            | some caf => match jsonField caf "name" with
              | some (.str name) => name
              | _ => "unknown"
            | none => "unknown"
        | _ => match commitAuthorFields with
          | some caf => match jsonField caf "name" with
            | some (.str name) => name
            | _ => "unknown"
          | none => "unknown"
      let date := match commitAuthorFields with
        | some caf => match jsonField caf "date" with
          | some (.str d) => d
          | _ => match commitCommitterFields with
            | some ccf => match jsonField ccf "date" with
              | some (.str d) => d
              | _ => nowIso
            | none => nowIso
        | none => match commitCommitterFields with
          | some ccf => match jsonField ccf "date" with
            | some (.str d) => d
            | _ => nowIso
          | none => nowIso
      if directSha = "" then none
      else some { sha := directSha, message := message, author := author, date := date }
  | _ => none

/-- `parseChangelogEntries` from the source, over the parsed cache value
(`none` models a missing key or a `JSON.parse` failure): a non-array
parse yields `null`, an array keeps the first 10 normalized entries. -/
def parseChangelogEntries (nowIso : String) : Option Json → Option (List ChangelogEntry)
  | some (.arr items) => some ((items.take 10).filterMap (normalizeChangelogEntry nowIso))
  | _ => none

/-- Outcome of the upstream commits fetch inside `loadChangelog`: `threw`
is a rejected `fetch` (network failure) and `jsonThrew` a rejected
`res.json()` — both are awaited outside any `try`, so they propagate;
`notOk` is a non-2xx response; `body` a 2xx response with parsed JSON. -/
inductive ChangelogUpstream where
  | threw
  | notOk
  | jsonThrew
  | body (payload : Json)

/-- `loadChangelog` from the source as a pure function of the parsed cache
value and the upstream outcome.  A parseable cache hit (or a non-2xx / a
non-array body) never errors, but a rejected `fetch` or `res.json()`
propagates (`Except.error`) because nothing catches it.  The successful
path also persists the payload (CHANGELOG_CACHE_KEY, TTL 600s); the write
is not modelled since the claim concerns caller-visible read outcomes. -/
def loadChangelog (nowIso : String) (cachedRaw : Option Json)
    (upstream : ChangelogUpstream) : Except Unit (List ChangelogEntry) :=
  match parseChangelogEntries nowIso cachedRaw with
  | some cached => .ok cached
  | none =>
    match upstream with
    | .threw => .error ()
    | .notOk => .ok []
    | .jsonThrew => .error ()
    | .body payload =>
      match payload with
      | .arr items => .ok ((items.take 10).filterMap (normalizeChangelogEntry nowIso))
      | _ => .ok []

/-- The `/changelog` GET branch of the `fetch` handler: without a token it
answers 200 with empty commits and never calls upstream; with a token it
awaits `loadChangelog`, whose exception (if any) escapes to the caller. -/
def changelogResponse (hasToken : Bool) (nowIso : String) (cachedRaw : Option Json)
    (upstream : ChangelogUpstream) : Except Unit (ℕ × List ChangelogEntry) :=
  if !hasToken then .ok (200, [])
  else
    match loadChangelog nowIso cachedRaw upstream with
    | .ok commits => .ok (200, commits)
    | .error e => .error e

/-- The inverse of `fleetStatusSeverity`, mapping a severity rank back to
the status it encodes. -/
def statusOfSeverity (severity : ℕ) : FleetHealthStatus :=
  if severity = 3 then .RED
  else if severity = 2 then .YELLOW
  else if severity = 1 then .GREEN
  else .UNKNOWN

/-- The per-repo severities of a repo-health list, folded with `max`, as
the spec describes the fleet verdict. -/
def maxRepoSeverity (repos : List FleetRepoHealth) : ℕ :=
  (repos.map (fun r => fleetStatusSeverity (deriveRepoHealthStatus r))).foldr max 0

/-! ## Helper lemmas -/

theorem insertSorted_perm (le : α → α → Bool) (a : α) (l : List α) :
    (insertSorted le a l).Perm (a :: l) := by
  induction l with
  | nil => exact List.Perm.refl _
  | cons b bs ih =>
    unfold insertSorted
    by_cases h : le b a = true
    · rw [if_pos h]
      exact (ih.cons b).trans (List.Perm.swap a b bs)
    · rw [if_neg h]

theorem jsSortBy_foldl_perm (le : α → α → Bool) :
    ∀ (l acc : List α),
      (l.foldl (fun acc x => insertSorted le x acc) acc).Perm (acc ++ l) := by
  intro l
  induction l with
  | nil => intro acc; simp
  | cons x xs ih =>
    intro acc
    have h1 := ih (insertSorted le x acc)
    have h2 : (insertSorted le x acc ++ xs).Perm (acc ++ x :: xs) :=
      ((insertSorted_perm le x acc).append_right xs).trans List.perm_middle.symm
    rw [List.foldl_cons]
    exact h1.trans h2

theorem jsSortBy_perm (le : α → α → Bool) (l : List α) : (jsSortBy le l).Perm l := by
  simpa [jsSortBy] using jsSortBy_foldl_perm le l []

theorem pairwise_insertSorted (le : α → α → Bool)
    (htrans : ∀ a b c, le a b = true → le b c = true → le a c = true)
    (htotal : ∀ a b, le a b = true ∨ le b a = true) (a : α) (l : List α)
    (h : l.Pairwise (fun x y => le x y = true)) :
    (insertSorted le a l).Pairwise (fun x y => le x y = true) := by
  induction l with
  | nil => simp [insertSorted]
  | cons b bs ih =>
    rw [List.pairwise_cons] at h
    unfold insertSorted
    by_cases hba : le b a = true
    · rw [if_pos hba]
      rw [List.pairwise_cons]
      refine ⟨?_, ih h.2⟩
      intro y hy
      rcases List.mem_cons.mp (((insertSorted_perm le a bs).mem_iff).mp hy) with hya | hyb
      · exact hya ▸ hba
      · exact h.1 y hyb
    · rw [if_neg hba]
      have hab : le a b = true := (htotal a b).resolve_right (by simpa using hba)
      rw [List.pairwise_cons]
      refine ⟨?_, List.pairwise_cons.mpr h⟩
      intro y hy
      rcases List.mem_cons.mp hy with hyb | hyy
      · exact hyb ▸ hab
      · exact htrans a b y hab (h.1 y hyy)

theorem jsSortBy_foldl_pairwise (le : α → α → Bool)
    (htrans : ∀ a b c, le a b = true → le b c = true → le a c = true)
    (htotal : ∀ a b, le a b = true ∨ le b a = true) :
    ∀ (l acc : List α), acc.Pairwise (fun x y => le x y = true) →
      (l.foldl (fun acc x => insertSorted le x acc) acc).Pairwise
        (fun x y => le x y = true) := by
  intro l
  induction l with
  | nil => intro acc h; simpa using h
  | cons x xs ih =>
    intro acc h
    exact ih (insertSorted le x acc) (pairwise_insertSorted le htrans htotal x acc h)

theorem jsSortBy_pairwise (le : α → α → Bool)
    (htrans : ∀ a b c, le a b = true → le b c = true → le a c = true)
    (htotal : ∀ a b, le a b = true ∨ le b a = true) (l : List α) :
    (jsSortBy le l).Pairwise (fun x y => le x y = true) :=
  jsSortBy_foldl_pairwise le htrans htotal l [] (List.Pairwise.nil)

theorem jsSortBy_length (le : α → α → Bool) (l : List α) :
    (jsSortBy le l).length = l.length :=
  (jsSortBy_perm le l).length_eq

theorem charListLe_total : ∀ (a b : List Char),
    charListLe a b = true ∨ charListLe b a = true := by
  intro a
  induction a with
  | nil => intro b; left; rfl
  | cons c cs ih =>
    intro b
    cases b with
    | nil => right; rfl
    | cons d ds =>
      by_cases h1 : c.toNat < d.toNat
      · left; simp [charListLe, h1]
      · by_cases h2 : d.toNat < c.toNat
        · right; simp [charListLe, h2]
        · rcases ih ds with h | h
          · left; simp [charListLe, h1, h2, h]
          · right; simp [charListLe, h1, h2, h]

theorem charListLe_trans : ∀ (a b c : List Char),
    charListLe a b = true → charListLe b c = true → charListLe a c = true := by
  intro a
  induction a with
  | nil => intro b c _ _; rfl
  | cons x xs ih =>
    intro b c hab hbc
    cases b with
    | nil => simp [charListLe] at hab
    | cons y ys =>
      cases c with
      | nil => simp [charListLe] at hbc
      | cons z zs =>
        by_cases hxy : x.toNat < y.toNat
        · by_cases hyz : y.toNat < z.toNat
          · have hxz : x.toNat < z.toNat := Nat.lt_trans hxy hyz
            simp [charListLe, hxz]
          · by_cases hzy : z.toNat < y.toNat
            · simp [charListLe, hyz, hzy] at hbc
            · have hxz : x.toNat < z.toNat := by omega
              simp [charListLe, hxz]
        · by_cases hyx : y.toNat < x.toNat
          · simp [charListLe, hxy, hyx] at hab
          · by_cases hyz : y.toNat < z.toNat
            · have hxz : x.toNat < z.toNat := by omega
              simp [charListLe, hxz]
            · by_cases hzy : z.toNat < y.toNat
              · simp [charListLe, hyz, hzy] at hbc
              · have h1 : ¬ x.toNat < z.toNat := by omega
                have h2 : ¬ z.toNat < x.toNat := by omega
                simp only [charListLe, if_neg hxy, if_neg hyx] at hab
                simp only [charListLe, if_neg hyz, if_neg hzy] at hbc
                simp only [charListLe, if_neg h1, if_neg h2]
                exact ih ys zs hab hbc

theorem localeLe_total (a b : String) : localeLe a b = true ∨ localeLe b a = true :=
  charListLe_total a.data b.data

theorem localeLe_trans (a b c : String) :
    localeLe a b = true → localeLe b c = true → localeLe a c = true :=
  charListLe_trans a.data b.data c.data

theorem fleetStatusSeverity_le_three (s : FleetHealthStatus) :
    fleetStatusSeverity s ≤ 3 := by
  cases s <;> simp [fleetStatusSeverity]

theorem maxRepoSeverity_le_three (l : List FleetRepoHealth) :
    maxRepoSeverity l ≤ 3 := by
  induction l with
  | nil => simp [maxRepoSeverity]
  | cons r rest ih =>
    have hr := fleetStatusSeverity_le_three (deriveRepoHealthStatus r)
    simp only [maxRepoSeverity, List.map_cons, List.foldr_cons] at *
    omega

theorem maxRepoSeverity_cons (r : FleetRepoHealth) (rest : List FleetRepoHealth) :
    maxRepoSeverity (r :: rest)
      = max (fleetStatusSeverity (deriveRepoHealthStatus r)) (maxRepoSeverity rest) := by
  simp [maxRepoSeverity]

theorem statusOfSeverity_severity (s : FleetHealthStatus) :
    statusOfSeverity (fleetStatusSeverity s) = s := by
  cases s <;> rfl

theorem deriveFleetHealthStatusAux_severity :
    ∀ (l : List FleetRepoHealth) (acc : FleetHealthStatus),
      fleetStatusSeverity (deriveFleetHealthStatusAux l acc)
        = max (maxRepoSeverity l) (fleetStatusSeverity acc) := by
  intro l
  induction l with
  | nil => intro acc; simp [deriveFleetHealthStatusAux, maxRepoSeverity]
  | cons r rest ih =>
    intro acc
    rw [maxRepoSeverity_cons]
    have hsev := fleetStatusSeverity_le_three (deriveRepoHealthStatus r)
    have hacc := fleetStatusSeverity_le_three acc
    have hrest := maxRepoSeverity_le_three rest
    show fleetStatusSeverity
        (if (if fleetStatusSeverity (deriveRepoHealthStatus r) > fleetStatusSeverity acc
              then deriveRepoHealthStatus r else acc) = .RED
         then (if fleetStatusSeverity (deriveRepoHealthStatus r) > fleetStatusSeverity acc
              then deriveRepoHealthStatus r else acc)
         else deriveFleetHealthStatusAux rest
              (if fleetStatusSeverity (deriveRepoHealthStatus r) > fleetStatusSeverity acc
               then deriveRepoHealthStatus r else acc)) = _
    by_cases hgt : fleetStatusSeverity (deriveRepoHealthStatus r) > fleetStatusSeverity acc
    · simp only [if_pos hgt]
      by_cases hred : deriveRepoHealthStatus r = .RED
      · rw [if_pos hred, hred]
        have h3 : fleetStatusSeverity .RED = 3 := rfl
        rw [hred] at hgt hsev
        rw [h3] at hgt hsev ⊢
        omega
      · rw [if_neg hred, ih]
        omega
    · simp only [if_neg hgt]
      by_cases hred : acc = .RED
      · rw [if_pos hred, hred]
        have h3 : fleetStatusSeverity .RED = 3 := rfl
        rw [hred] at hgt hacc
        rw [h3] at hgt hacc ⊢
        omega
      · rw [if_neg hred, ih]
        omega

/-- C1, amended.  For every repo CI conclusion, `deriveRepoHealthStatus`
follows the fixed table with `null` amended to YELLOW: `success → GREEN`;
`"unknown"` → UNKNOWN; `{failure, cancelled, timed_out, action_required,
startup_failure, stale}` → RED; anything else — including the
serialized-`null` conclusion `"null"`, `in_progress`, `neutral`,
`skipped` — → YELLOW.  The fleet-wide status is the maximum of the
per-repo severities under RED(3) > YELLOW(2) > GREEN(1) > UNKNOWN(0), and
an empty repo list yields UNKNOWN. -/
theorem health_severity_table_and_fleet_max :
    (∀ repo : FleetRepoHealth,
        deriveRepoHealthStatus repo = specConclusionSeverity (jsToLower repo.conclusion)) ∧
    (∀ repos : List FleetRepoHealth,
        fleetStatusSeverity (deriveFleetHealthStatus repos) = maxRepoSeverity repos) ∧
    (∀ repos : List FleetRepoHealth,
        deriveFleetHealthStatus repos = statusOfSeverity (maxRepoSeverity repos)) ∧
    deriveFleetHealthStatus [] = .UNKNOWN := by
  have htable : ∀ repo : FleetRepoHealth,
      deriveRepoHealthStatus repo = specConclusionSeverity (jsToLower repo.conclusion) := by
    intro repo
    unfold deriveRepoHealthStatus specConclusionSeverity
    by_cases hs : jsToLower repo.conclusion = "success"
    · simp [hs]
    · by_cases hu : jsToLower repo.conclusion = "unknown"
      · have hR : ¬ (jsToLower repo.conclusion = "failure"
            ∨ jsToLower repo.conclusion = "cancelled"
            ∨ jsToLower repo.conclusion = "timed_out"
            ∨ jsToLower repo.conclusion = "action_required"
            ∨ jsToLower repo.conclusion = "startup_failure"
            ∨ jsToLower repo.conclusion = "stale") := by
          rw [hu]; decide
        simp [hs, hu, hR]
      · by_cases hR : jsToLower repo.conclusion = "failure"
            ∨ jsToLower repo.conclusion = "cancelled"
            ∨ jsToLower repo.conclusion = "timed_out"
            ∨ jsToLower repo.conclusion = "action_required"
            ∨ jsToLower repo.conclusion = "startup_failure"
            ∨ jsToLower repo.conclusion = "stale"
        · simp [hs, hu, hR]
        · simp [hs, hu, hR]
  have hsev : ∀ repos : List FleetRepoHealth,
      fleetStatusSeverity (deriveFleetHealthStatus repos) = maxRepoSeverity repos := by
    intro repos
    unfold deriveFleetHealthStatus
    by_cases h : repos = []
    · simp [h, fleetStatusSeverity, maxRepoSeverity]
    · simp only [if_neg h, deriveFleetHealthStatusAux_severity]
      simp [fleetStatusSeverity]
  refine ⟨htable, hsev, ?_, rfl⟩
  intro repos
  calc deriveFleetHealthStatus repos
      = statusOfSeverity (fleetStatusSeverity (deriveFleetHealthStatus repos)) :=
        (statusOfSeverity_severity _).symm
    _ = statusOfSeverity (maxRepoSeverity repos) := by rw [hsev]

/-- C1, counterexample to the claim as stated.  A latest workflow run whose
`conclusion` is `null` is serialized by `toFleetRepoHealth` to the literal
string `"null"`, and `deriveRepoHealthStatus` maps it to YELLOW, not to
UNKNOWN as the claimed table says. -/
theorem null_conclusion_maps_to_yellow :
    (toFleetRepoHealth
        { repo := "clankamode/meta-runner", criticality := .critical
          tier := .ops, description := "meta runner" }
        (some { conclusion := none, status := some "in_progress"
                name := some "ci", updatedAt := some "2026-03-01T00:00:00Z" })
        true).conclusion = "null" ∧
    deriveRepoHealthStatus
      (toFleetRepoHealth
        { repo := "clankamode/meta-runner", criticality := .critical
          tier := .ops, description := "meta runner" }
        (some { conclusion := none, status := some "in_progress"
                name := some "ci", updatedAt := some "2026-03-01T00:00:00Z" })
        true) = .YELLOW ∧
    ¬ deriveRepoHealthStatus
        (toFleetRepoHealth
          { repo := "clankamode/meta-runner", criticality := .critical
            tier := .ops, description := "meta runner" }
          (some { conclusion := none, status := some "in_progress"
                  name := some "ci", updatedAt := some "2026-03-01T00:00:00Z" })
          true) = .UNKNOWN := by
  refine ⟨rfl, rfl, ?_⟩
  decide

/-- C2, the code evaluated at the failing input.  From a fresh rate-limit
window at a fixed instant, requests 1 through 10 are allowed and the 11th
is rejected (with `Retry-After` 60s), because the source sets
`RATE_LIMIT_MAX_REQUESTS = 10`; the claim (and the repository's own test
suite) expect 60 requests to succeed before the first 429. -/
theorem rate_limit_rejects_eleventh_request :
    RATE_LIMIT_MAX_REQUESTS = 10 ∧
    ¬ RATE_LIMIT_MAX_REQUESTS = 60 ∧
    (checkRateLimit 0 (rlIterate 0 0)).allowed = true ∧
    (checkRateLimit 0 (rlIterate 0 9)).allowed = true ∧
    (checkRateLimit 0 (rlIterate 0 10)).allowed = false ∧
    (checkRateLimit 0 (rlIterate 0 10)).retryAfter = 60 ∧
    (checkRateLimit 0 (rlIterate 0 10)).persistedCount = 10 := by
  decide

/-- C9.  The presence detector reports `"operational"` exactly when a
last-seen timestamp exists and `now - lastSeen` is at most the fixed
10-minute threshold: the boundary `now - 10min` is online, `now - 10min
- 1ms` is offline, and a missing or non-finite `lastSeen` is offline —
the function always returns one of the two states, never an error. -/
theorem presence_threshold (now : ℤ) (lastSeen : Option ℤ) :
    (getStatusPayload now lastSeen = "operational"
        ↔ ∃ t, lastSeen = some t ∧ now - t ≤ STATUS_OFFLINE_THRESHOLD_MS) ∧
    (getStatusPayload now lastSeen = "operational"
        ∨ getStatusPayload now lastSeen = "offline") ∧
    getStatusPayload now (some (now - 600000)) = "operational" ∧
    getStatusPayload now (some (now - 600001)) = "offline" ∧
    getStatusPayload now none = "offline" := by
  have hth : STATUS_OFFLINE_THRESHOLD_MS = 600000 := by decide
  refine ⟨?_, ?_, ?_, ?_, rfl⟩
  · cases lastSeen with
    | none => simp [getStatusPayload]
    | some t =>
      by_cases h : now - t > STATUS_OFFLINE_THRESHOLD_MS
      · simp only [getStatusPayload, if_pos h]
        constructor
        · intro hfalse; exact absurd hfalse (by decide)
        · rintro ⟨t', ht', hle⟩
          injection ht' with ht'
          omega
      · simp only [getStatusPayload, if_neg h]
        constructor
        · intro _; exact ⟨t, rfl, by omega⟩
        · intro _; trivial
  · cases lastSeen with
    | none => right; rfl
    | some t =>
      by_cases h : now - t > STATUS_OFFLINE_THRESHOLD_MS
      · right; rw [getStatusPayload, if_pos h]
      · left; rw [getStatusPayload, if_neg h]
  · have h : ¬ now - (now - 600000) > STATUS_OFFLINE_THRESHOLD_MS := by
      rw [hth]; omega
    rw [getStatusPayload, if_neg h]
  · have h : now - (now - 600001) > STATUS_OFFLINE_THRESHOLD_MS := by
      rw [hth]; omega
    rw [getStatusPayload, if_pos h]

theorem routeStatus_ne_429 (route : RouteOutcome) : routeStatus route ≠ 429 := by
  cases route <;> decide

/-- C10.  The rate limiter is consulted only for GETs to public endpoints
outside a test environment: whenever `process.env.VITEST = "true"` or
`process.env.NODE_ENV = "test"`, the gate is skipped, the response status
is exactly the dispatched route's status, and no request on any path is
answered with 429; conversely a 429 can only arise when the gate was
consulted outside a test environment and the limiter rejected the
request. -/
theorem rate_limit_skipped_in_test_env (method pathname : String)
    (procEnv : Option (Option String × Option String)) (now : ℤ)
    (rlState : Option RateLimitState) (route : RouteOutcome) :
    (isTestEnvironment procEnv = true →
        rateLimitConsulted method pathname procEnv = false) ∧
    (isTestEnvironment procEnv = true →
        workerResponseStatus method pathname procEnv now rlState route = routeStatus route) ∧
    (isTestEnvironment procEnv = true →
        workerResponseStatus method pathname procEnv now rlState route ≠ 429) ∧
    (workerResponseStatus method pathname procEnv now rlState route = 429 →
        rateLimitConsulted method pathname procEnv = true
          ∧ isTestEnvironment procEnv = false
          ∧ (checkRateLimit now rlState).allowed = false) := by
  have hgate : isTestEnvironment procEnv = true →
      rateLimitConsulted method pathname procEnv = false := by
    intro h
    simp [rateLimitConsulted, h]
  have hstatus : isTestEnvironment procEnv = true →
      workerResponseStatus method pathname procEnv now rlState route = routeStatus route := by
    intro h
    simp [workerResponseStatus, hgate h]
  refine ⟨hgate, hstatus, ?_, ?_⟩
  · intro h
    rw [hstatus h]
    exact routeStatus_ne_429 route
  · unfold workerResponseStatus
    split_ifs with hc ha
    · intro h429; exact absurd h429 (routeStatus_ne_429 route)
    · intro _
      refine ⟨hc, ?_, by simpa using ha⟩
      by_contra htest
      rw [Bool.not_eq_false] at htest
      rw [hgate htest] at hc
      exact Bool.false_ne_true hc
    · intro h429; exact absurd h429 (routeStatus_ne_429 route)

/-- C10, witness: with `VITEST = "true"` set, a public GET's response is
the dispatched route's status, not 429. -/
theorem rate_limit_skipped_in_test_env_witness :
    isTestEnvironment (some (some "true", none)) = true ∧
    workerResponseStatus "GET" "/now" (some (some "true", none)) 0 none .ok ≠ 429 :=
  ⟨by decide,
    (rate_limit_skipped_in_test_env "GET" "/now" (some (some "true", none)) 0 none .ok).2.2.1
      (by decide)⟩

/-- On a `/fleet/health` GET: a parseable cached snapshot that is less
than 5 minutes old is returned without recomputation; when the snapshot is
absent or not fresh and the aggregation throws, the cached snapshot is
served regardless of its own freshness; and the response is 503 exactly
when the aggregation throws and no parseable cached snapshot exists. -/
theorem fleet_health_read_path (now : ℤ) (cached : Option FleetHealthPayload)
    (upstream : FleetHealthUpstream) :
    (∀ p, cached = some p → isFleetHealthFresh now p = true →
        fleetHealthResponse now cached upstream
          = { status := 200, body := some p, recomputed := false }) ∧
    (∀ p, cached = some p → isFleetHealthFresh now p = false → upstream = .threw →
        fleetHealthResponse now cached upstream
          = { status := 200, body := some p, recomputed := true }) ∧
    (cached = none → upstream = .threw →
        fleetHealthResponse now cached upstream
          = { status := 503, body := none, recomputed := true }) ∧
    ((fleetHealthResponse now cached upstream).status = 503
        ↔ cached = none ∧ upstream = .threw) := by
  refine ⟨?_, ?_, ?_, ?_⟩
  · rintro p rfl hfresh
    simp [fleetHealthResponse, hfresh]
  · rintro p rfl hfresh rfl
    simp [fleetHealthResponse, hfresh]
  · rintro rfl rfl
    rfl
  · cases cached with
    | none =>
      cases upstream with
      | ok q => simp [fleetHealthResponse]
      | threw => simp [fleetHealthResponse]
    | some p =>
      by_cases hfresh : isFleetHealthFresh now p = true
      · simp [fleetHealthResponse, hfresh]
      · cases upstream with
        | ok q => simp [fleetHealthResponse, hfresh]
        | threw => simp [fleetHealthResponse, hfresh]

/-- Instance of `fleet_health_read_path`: a snapshot checked at epoch 0
read at `now = 100` ms is fresh and is returned unchanged without
consulting the upstream even though the upstream would throw. -/
theorem fleet_health_read_path_witness :
    isFleetHealthFresh 100 { status := .GREEN, repos := [], checkedAt := some 0 } = true ∧
    fleetHealthResponse 100
        (some { status := .GREEN, repos := [], checkedAt := some 0 }) .threw
      = { status := 200
          body := some { status := .GREEN, repos := [], checkedAt := some 0 }
          recomputed := false } :=
  ⟨by decide,
    (fleet_health_read_path 100
        (some { status := .GREEN, repos := [], checkedAt := some 0 }) .threw).1
      { status := .GREEN, repos := [], checkedAt := some 0 } rfl (by decide)⟩

theorem ceil_half_eq (n : ℕ) : (⌈(n : ℚ) / 2⌉).toNat = (n + 1) / 2 := by
  have hk1 : n ≤ 2 * ((n + 1) / 2) := by omega
  have hk2 : 2 * ((n + 1) / 2) ≤ n + 1 := by omega
  have hq1 : (n : ℚ) ≤ 2 * (((n + 1) / 2 : ℕ) : ℚ) := by exact_mod_cast hk1
  have hq2 : 2 * (((n + 1) / 2 : ℕ) : ℚ) ≤ (n : ℚ) + 1 := by exact_mod_cast hk2
  have hceil : ⌈(n : ℚ) / 2⌉ = (((n + 1) / 2 : ℕ) : ℤ) := by
    rw [Int.ceil_eq_iff]
    constructor
    · rw [Int.cast_natCast]
      linarith
    · rw [Int.cast_natCast]
      linarith
  rw [hceil, Int.toNat_natCast]

/-- C4.  The trend direction computed by the worker agrees, for every
newest-first conclusion list, with the spec's description (empty →
unknown, singleton → flat, newest-vs-oldest score comparison, tie broken
by comparing the average of the `⌈n/2⌉` newest scores with the average of
the remainder, equal averages → flat), and on the spec's concrete
examples it yields `up`, `down`, `flat`, `unknown` as stated. -/
theorem trend_direction_matches_spec :
    (∀ conclusions : List String,
        deriveTrendDirection conclusions = specTrendDirection conclusions) ∧
    deriveTrendDirection [] = .unknown ∧
    deriveTrendDirection ["success"] = .flat ∧
    deriveTrendDirection ["success", "success", "failure", "failure", "failure"] = .up ∧
    deriveTrendDirection ["failure", "failure", "failure", "success", "success"] = .down := by
  refine ⟨?_, rfl, rfl, by decide, by decide⟩
  intro cs
  unfold deriveTrendDirection specTrendDirection
  by_cases h0 : cs = []
  · simp [h0]
  · have hlen0 : ¬ cs.length = 0 := by simpa [List.length_eq_zero] using h0
    rw [if_neg h0, if_neg hlen0]
    by_cases h1 : cs.length = 1
    · rw [if_pos h1, if_pos h1]
    · rw [if_neg h1, if_neg h1]
      simp only [natCeilHalf, ceil_half_eq]

/-- C5.  When the primary registry cache misses and the upstream call
fails in any way (non-2xx, empty content, undecodable content, or a
throw), a parseable stale copy is served with its parsed content
unchanged and nothing is written; with no stale copy the read returns the
empty default, never an error; and a successful upstream refresh returns
the extracted entries and writes them to both the primary key (1h TTL)
and the stale key (7-day TTL). -/
theorem registry_stale_fallback (upstream : RegistryUpstream) (stale : Option Json) :
    (registryUpstreamFailed upstream = true →
        loadRegistryEntries none upstream stale
          = ((stale.map extractRegistryEntries).getD [], [])) ∧
    (∀ sj, registryUpstreamFailed upstream = true →
        loadRegistryEntries none upstream (some sj)
          = (extractRegistryEntries sj, [])) ∧
    (registryUpstreamFailed upstream = true →
        loadRegistryEntries none upstream none = ([], [])) ∧
    (∀ decoded, loadRegistryEntries none (.content (some decoded)) stale
        = (extractRegistryEntries decoded,
           [{ key := REGISTRY_CACHE_KEY, entries := extractRegistryEntries decoded
              ttlSeconds := REGISTRY_TTL_SEC },
            { key := REGISTRY_STALE_CACHE_KEY, entries := extractRegistryEntries decoded
              ttlSeconds := REGISTRY_STALE_TTL_SEC }])) ∧
    (∀ p, loadRegistryEntries (some p) upstream stale = (extractRegistryEntries p, [])) := by
  have hfail : registryUpstreamFailed upstream = true →
      loadRegistryEntries none upstream stale
        = ((stale.map extractRegistryEntries).getD [], []) := by
    intro hf
    cases upstream with
    | notOk => rfl
    | noContent => rfl
    | threw => rfl
    | content decoded =>
      cases decoded with
      | none => rfl
      | some d => exact absurd hf (by simp [registryUpstreamFailed])
  refine ⟨hfail, ?_, ?_, fun decoded => rfl, fun p => rfl⟩
  · intro sj hf
    cases upstream with
    | notOk => rfl
    | noContent => rfl
    | threw => rfl
    | content decoded =>
      cases decoded with
      | none => rfl
      | some d => exact absurd hf (by simp [registryUpstreamFailed])
  · intro hf
    cases upstream with
    | notOk => rfl
    | noContent => rfl
    | threw => rfl
    | content decoded =>
      cases decoded with
      | none => rfl
      | some d => exact absurd hf (by simp [registryUpstreamFailed])

/-- C5, witness: primary miss, a non-2xx upstream response, and a stale
copy holding one registry entry — the read returns exactly that entry and
writes nothing. -/
theorem registry_stale_fallback_witness :
    registryUpstreamFailed .notOk = true ∧
    loadRegistryEntries none .notOk
        (some (Json.arr [Json.obj
          [("repo", Json.str "clankamode/a-tool"), ("criticality", Json.str "high"),
           ("tier", Json.str "ops"), ("description", Json.str "a")]]))
      = ([{ repo := "clankamode/a-tool", criticality := .high, tier := .ops
            description := "a" }], []) := by
  refine ⟨rfl, ?_⟩
  have h := (registry_stale_fallback .notOk
    (some (Json.arr [Json.obj
      [("repo", Json.str "clankamode/a-tool"), ("criticality", Json.str "high"),
       ("tier", Json.str "ops"), ("description", Json.str "a")]]))).2.1
    (Json.arr [Json.obj
      [("repo", Json.str "clankamode/a-tool"), ("criticality", Json.str "high"),
       ("tier", Json.str "ops"), ("description", Json.str "a")]]) rfl
  rw [h]
  decide

theorem historySortLe_total (a b : HistoryEntry) :
    historySortLe a b = true ∨ historySortLe b a = true := by
  simp only [historySortLe, decide_eq_true_eq]
  exact (le_total b.timestamp a.timestamp)

theorem historySortLe_trans (a b c : HistoryEntry) :
    historySortLe a b = true → historySortLe b c = true → historySortLe a c = true := by
  simp only [historySortLe, decide_eq_true_eq]
  exact fun h1 h2 => le_trans h2 h1

theorem normalizeHistory_arr_length (now : ℚ) (items : List Json) :
    (normalizeHistory now (.arr items)).length = min HISTORY_LIMIT items.length := by
  simp [normalizeHistory, List.length_mapIdx, List.length_take]

theorem appendPresenceHistory_length (now : ℚ) (stored activity : Json) :
    (appendPresenceHistory now stored activity).length ≤ HISTORY_LIMIT := by
  simp [appendPresenceHistory, List.length_take]

theorem appendedHistory_foldl_length (now : ℚ) :
    ∀ (activities : List Json) (state : List HistoryEntry),
      state.length ≤ HISTORY_LIMIT →
        (activities.foldl
            (fun state activity =>
              appendPresenceHistory now (.arr (state.map historyEntryToJson)) activity)
            state).length
          = min (state.length + activities.length) HISTORY_LIMIT := by
  intro activities
  induction activities with
  | nil =>
    intro state hstate
    simp only [List.foldl_nil, List.length_nil, Nat.add_zero]
    omega
  | cons a rest ih =>
    intro state hstate
    rw [List.foldl_cons]
    have hstep : (appendPresenceHistory now (.arr (state.map historyEntryToJson)) a).length
        = min (state.length + 1) HISTORY_LIMIT := by
      simp only [appendPresenceHistory, List.length_take, List.length_cons,
        normalizeHistory_arr_length, List.length_map, HISTORY_LIMIT]
      omega
    rw [ih _ (by rw [hstep]; simp only [HISTORY_LIMIT]; omega), hstep]
    simp only [HISTORY_LIMIT, List.length_cons]
    omega

theorem appendedHistoryState_length (now : ℚ) (activities : List Json) :
    (appendedHistoryState now activities).length = min activities.length HISTORY_LIMIT := by
  have h := appendedHistory_foldl_length now activities [] (by simp [HISTORY_LIMIT])
  simpa [appendedHistoryState] using h

/-- C6.  The `/history` read renormalizes every stored entry, returns them
sorted by timestamp descending, truncated to the parsed limit, which is at
most 20 and parses as: `NaN`/non-finite → 20, absent (`Number(null) = 0`)
or non-positive → 20, fractional floored (`3.9 → 3`), above 20 clamped to
20; and the `/set-presence` append keeps at most 20 entries persisted — a
sequence of `n` appends from an empty store leaves `min n 20` entries, so
25 appends leave exactly 20. -/
theorem history_read_sort_limit_and_append_cap :
    (∀ (now : ℚ) (stored : Json) (rawLimit : Option ℚ),
        (readHistory now stored rawLimit).Pairwise
          (fun a b => b.timestamp ≤ a.timestamp)) ∧
    (∀ (now : ℚ) (items : List Json) (rawLimit : Option ℚ),
        (readHistory now (.arr items) rawLimit).length
          = min (parseHistoryLimit rawLimit) items.length) ∧
    (∀ rawLimit, parseHistoryLimit rawLimit ≤ 20) ∧
    parseHistoryLimit none = 20 ∧
    parseHistoryLimit (some 0) = 20 ∧
    parseHistoryLimit (some (-3)) = 20 ∧
    parseHistoryLimit (some (39 / 10)) = 3 ∧
    parseHistoryLimit (some 100) = 20 ∧
    (∀ (now : ℚ) (stored activity : Json),
        (appendPresenceHistory now stored activity).length ≤ 20) ∧
    (∀ (now : ℚ) (activities : List Json),
        (appendedHistoryState now activities).length = min activities.length 20) := by
  refine ⟨?_, ?_, ?_, rfl, ?_, ?_, ?_, ?_,
    fun now stored activity => appendPresenceHistory_length now stored activity,
    fun now activities => appendedHistoryState_length now activities⟩
  · intro now stored rawLimit
    have hs := jsSortBy_pairwise historySortLe historySortLe_trans historySortLe_total
      ((match stored with
        | .arr items => items
        | _ => []).mapIdx (fun i e => toHistoryEntry e (now - i)))
    have ht := hs.sublist (List.take_sublist (parseHistoryLimit rawLimit) _)
    exact ht.imp (fun h => by simpa [historySortLe, decide_eq_true_eq] using h)
  · intro now items rawLimit
    simp [readHistory, List.length_take, jsSortBy_length, List.length_mapIdx]
  · intro rawLimit
    cases rawLimit with
    | none => simp [parseHistoryLimit, HISTORY_LIMIT]
    | some q =>
      simp only [parseHistoryLimit, HISTORY_LIMIT]
      split_ifs <;> omega
  · simp [parseHistoryLimit, HISTORY_LIMIT]
  · norm_num [parseHistoryLimit, HISTORY_LIMIT]
  · have hq : (0:ℚ) < 39 / 10 := by norm_num
    have hfl : ⌊(39 / 10 : ℚ)⌋ = 3 := by
      rw [Int.floor_eq_iff]
      norm_num
    simp [parseHistoryLimit, HISTORY_LIMIT, hq, hfl]
  · have hq : (0:ℚ) < 100 := by norm_num
    have hfl : ⌊(100 : ℚ)⌋ = 100 := by
      rw [Int.floor_eq_iff]
      norm_num
    simp [parseHistoryLimit, HISTORY_LIMIT, hq, hfl]

theorem collect_key_not_seen_and_first :
    ∀ (l : List Json) (seen : List String) (o : RegistryEntry),
      o ∈ collectRegistryEntries l seen →
        jsToLower o.repo ∉ seen ∧
          (l.filterMap normalizeRegistryEntry).find?
            (fun e => jsToLower e.repo == jsToLower o.repo) = some o := by
  intro l
  induction l with
  | nil =>
    intro seen o ho
    simp [collectRegistryEntries] at ho
  | cons item rest ih =>
    intro seen o ho
    cases hn : normalizeRegistryEntry item with
    | none =>
      rw [List.filterMap_cons, hn]
      simp only [collectRegistryEntries, hn] at ho
      exact ih seen o ho
    | some entry =>
      rw [List.filterMap_cons, hn]
      simp only [collectRegistryEntries, hn] at ho
      by_cases hseen : jsToLower entry.repo ∈ seen
      · rw [if_pos hseen] at ho
        obtain ⟨hnot, hfind⟩ := ih seen o ho
        have hne : (jsToLower entry.repo == jsToLower o.repo) = false := by
          rw [beq_eq_false_iff_ne]
          intro he
          exact hnot (he ▸ hseen)
        refine ⟨hnot, ?_⟩
        simp only [List.find?_cons, hne]
        exact hfind
      · rw [if_neg hseen] at ho
        rcases List.mem_cons.mp ho with rfl | ho'
        · refine ⟨hseen, ?_⟩
          simp [List.find?_cons]
        · obtain ⟨hnot, hfind⟩ := ih _ o ho'
          have hne' : jsToLower o.repo ≠ jsToLower entry.repo := fun he =>
            hnot (by rw [he]; exact List.mem_cons_self _ _)
          have hne : (jsToLower entry.repo == jsToLower o.repo) = false := by
            rw [beq_eq_false_iff_ne]
            exact fun he => hne' he.symm
          refine ⟨fun hmem => hnot (List.mem_cons_of_mem _ hmem), ?_⟩
          simp only [List.find?_cons, hne]
          exact hfind

theorem collect_pairwise :
    ∀ (l : List Json) (seen : List String),
      (collectRegistryEntries l seen).Pairwise
        (fun a b => jsToLower a.repo ≠ jsToLower b.repo) := by
  intro l
  induction l with
  | nil => intro seen; simp [collectRegistryEntries]
  | cons item rest ih =>
    intro seen
    cases hn : normalizeRegistryEntry item with
    | none =>
      simp only [collectRegistryEntries, hn]
      exact ih seen
    | some entry =>
      simp only [collectRegistryEntries, hn]
      by_cases hseen : jsToLower entry.repo ∈ seen
      · rw [if_pos hseen]
        exact ih seen
      · rw [if_neg hseen]
        rw [List.pairwise_cons]
        refine ⟨?_, ih _⟩
        intro o ho he
        apply (collect_key_not_seen_and_first rest _ o ho).1
        rw [← he]
        exact List.mem_cons_self _ _

theorem collect_coverage :
    ∀ (l : List Json) (seen : List String) (e : RegistryEntry),
      e ∈ l.filterMap normalizeRegistryEntry →
        jsToLower e.repo ∈ seen
          ∨ ∃ o ∈ collectRegistryEntries l seen, jsToLower o.repo = jsToLower e.repo := by
  intro l
  induction l with
  | nil =>
    intro seen e he
    simp at he
  | cons item rest ih =>
    intro seen e he
    cases hn : normalizeRegistryEntry item with
    | none =>
      rw [List.filterMap_cons, hn] at he
      simp only [collectRegistryEntries, hn]
      exact ih seen e he
    | some entry =>
      rw [List.filterMap_cons, hn] at he
      simp only [collectRegistryEntries, hn]
      by_cases hseen : jsToLower entry.repo ∈ seen
      · rw [if_pos hseen]
        rcases List.mem_cons.mp he with heq | he'
        · left; rw [heq]; exact hseen
        · exact ih seen e he'
      · rw [if_neg hseen]
        rcases List.mem_cons.mp he with heq | he'
        · right
          exact ⟨entry, List.mem_cons_self _ _, by rw [heq]⟩
        · rcases ih (jsToLower entry.repo :: seen) e he' with hmem | ⟨o, homem, hokey⟩
          · rcases List.mem_cons.mp hmem with heq | hseen'
            · right
              exact ⟨entry, List.mem_cons_self _ _, heq.symm⟩
            · left; exact hseen'
          · right
            exact ⟨o, List.mem_cons_of_mem _ homem, hokey⟩

/-- C7.  For every registry payload, the served entry list has pairwise
distinct case-insensitive repo identities, is sorted by repo, each served
entry is exactly the first normalized occurrence of its case-insensitive
identity in the upstream payload, and every identity occurring in the
payload is represented — so the served set has exactly one entry per
case-insensitive repo identity, first occurrence wins, in a deterministic
order. -/
theorem registry_dedupe_and_ordering (payload : Json) :
    (extractRegistryEntries payload).Pairwise
        (fun a b => jsToLower a.repo ≠ jsToLower b.repo) ∧
    (extractRegistryEntries payload).Pairwise
        (fun a b => localeLe a.repo b.repo = true) ∧
    (∀ o ∈ extractRegistryEntries payload,
        (registryEntryStream payload).find?
            (fun e => jsToLower e.repo == jsToLower o.repo) = some o) ∧
    (∀ e ∈ registryEntryStream payload,
        ∃ o ∈ extractRegistryEntries payload,
          jsToLower o.repo = jsToLower e.repo) := by
  have hperm : (extractRegistryEntries payload).Perm
      (collectRegistryEntries (registrySource payload) []) :=
    jsSortBy_perm _ _
  refine ⟨?_, ?_, ?_, ?_⟩
  · exact (hperm.pairwise_iff (fun h => h.symm)).mpr
      (collect_pairwise (registrySource payload) [])
  · exact jsSortBy_pairwise (fun (a b : RegistryEntry) => localeLe a.repo b.repo)
      (fun (a b c : RegistryEntry) hab hbc => localeLe_trans a.repo b.repo c.repo hab hbc)
      (fun (a b : RegistryEntry) => localeLe_total a.repo b.repo) _
  · intro o ho
    exact (collect_key_not_seen_and_first (registrySource payload) [] o
      (hperm.mem_iff.mp ho)).2
  · intro e he
    rcases collect_coverage (registrySource payload) [] e he with hmem | ⟨o, homem, hokey⟩
    · simp at hmem
    · exact ⟨o, hperm.mem_iff.mpr homem, hokey⟩

/-- C7, witness: a payload with two case-variant duplicates of one repo —
the first occurrence is served, the duplicate dropped, and the output is
exactly the first normalized occurrence of its identity. -/
theorem registry_dedupe_and_ordering_witness :
    ({ repo := "clankamode/B-tool", criticality := .high, tier := .ops
       description := "b" } : RegistryEntry)
        ∈ extractRegistryEntries (.arr [
          .obj [("repo", .str "clankamode/B-tool"), ("criticality", .str "high"),
                ("tier", .str "ops"), ("description", .str "b")],
          .obj [("repo", .str "clankamode/b-TOOL"), ("criticality", .str "medium"),
                ("tier", .str "core"), ("description", .str "dup")],
          .obj [("repo", .str "clankamode/a-tool"), ("criticality", .str "critical"),
                ("tier", .str "core"), ("description", .str "a")]]) ∧
    (registryEntryStream (.arr [
          .obj [("repo", .str "clankamode/B-tool"), ("criticality", .str "high"),
                ("tier", .str "ops"), ("description", .str "b")],
          .obj [("repo", .str "clankamode/b-TOOL"), ("criticality", .str "medium"),
                ("tier", .str "core"), ("description", .str "dup")],
          .obj [("repo", .str "clankamode/a-tool"), ("criticality", .str "critical"),
                ("tier", .str "core"), ("description", .str "a")]])).find?
        (fun e => jsToLower e.repo ==
          jsToLower ({ repo := "clankamode/B-tool", criticality := .high, tier := .ops
                       description := "b" } : RegistryEntry).repo)
      = some { repo := "clankamode/B-tool", criticality := .high, tier := .ops
               description := "b" } :=
  ⟨by decide,
    (registry_dedupe_and_ordering (.arr [
          .obj [("repo", .str "clankamode/B-tool"), ("criticality", .str "high"),
                ("tier", .str "ops"), ("description", .str "b")],
          .obj [("repo", .str "clankamode/b-TOOL"), ("criticality", .str "medium"),
                ("tier", .str "core"), ("description", .str "dup")],
          .obj [("repo", .str "clankamode/a-tool"), ("criticality", .str "critical"),
                ("tier", .str "core"), ("description", .str "a")]])).2.2.1
      { repo := "clankamode/B-tool", criticality := .high, tier := .ops
        description := "b" }
      (by decide)⟩

theorem toCounter_natCast (n : ℕ) : toCounter (some (.num (n : ℚ))) = n := by
  simp only [toCounter]
  rw [if_neg (not_lt.mpr (Nat.cast_nonneg n)), Int.floor_natCast, Int.toNat_natCast]

theorem parseMetricsState_roundtrip (m : MetricsState) :
    parseMetricsState (some (metricsStateToJson m)) = m := by
  have h1 : jsonField
      [("requests_total", Json.num (m.requests_total : ℚ)),
       ("kv_hits", Json.num (m.kv_hits : ℚ)),
       ("kv_misses", Json.num (m.kv_misses : ℚ))] "requests_total"
      = some (Json.num (m.requests_total : ℚ)) := rfl
  have h2 : jsonField
      [("requests_total", Json.num (m.requests_total : ℚ)),
       ("kv_hits", Json.num (m.kv_hits : ℚ)),
       ("kv_misses", Json.num (m.kv_misses : ℚ))] "kv_hits"
      = some (Json.num (m.kv_hits : ℚ)) := rfl
  have h3 : jsonField
      [("requests_total", Json.num (m.requests_total : ℚ)),
       ("kv_hits", Json.num (m.kv_hits : ℚ)),
       ("kv_misses", Json.num (m.kv_misses : ℚ))] "kv_misses"
      = some (Json.num (m.kv_misses : ℚ)) := rfl
  simp only [parseMetricsState, metricsStateToJson, h1, h2, h3, toCounter_natCast]

/-- C8.  Every metrics write is the element-wise maximum of the in-memory
counters and the persisted counters advanced by this request, so the
written state is element-wise at least the persisted state that was read
and at least the in-memory state; the persisted JSON parses back exactly;
and a later write that reads this write back is again element-wise at
least it — so no persisted counter ever decreases between successive
sequential reads. -/
theorem metrics_merge_monotone :
    (∀ (inMemory : MetricsState) (hasRaw : Bool) (raw : Option Json),
        metricsLe (parseMetricsState raw) (incrementMetricsWrite inMemory hasRaw raw)) ∧
    (∀ (inMemory : MetricsState) (hasRaw : Bool) (raw : Option Json),
        metricsLe inMemory (incrementMetricsWrite inMemory hasRaw raw)) ∧
    (∀ m : MetricsState, parseMetricsState (some (metricsStateToJson m)) = m) ∧
    (∀ (inMemory₁ : MetricsState) (hasRaw₁ : Bool) (raw₁ : Option Json)
        (inMemory₂ : MetricsState) (hasRaw₂ : Bool),
        metricsLe (incrementMetricsWrite inMemory₁ hasRaw₁ raw₁)
          (incrementMetricsWrite inMemory₂ hasRaw₂
            (some (metricsStateToJson (incrementMetricsWrite inMemory₁ hasRaw₁ raw₁))))) := by
  refine ⟨?_, ?_, parseMetricsState_roundtrip, ?_⟩
  · intro inMemory hasRaw raw
    unfold metricsLe incrementMetricsWrite mergeMetricsState
    cases hasRaw <;> simp
  · intro inMemory hasRaw raw
    unfold metricsLe incrementMetricsWrite mergeMetricsState
    cases hasRaw <;> simp
  · intro inMemory₁ hasRaw₁ raw₁ inMemory₂ hasRaw₂
    have hrt := parseMetricsState_roundtrip (incrementMetricsWrite inMemory₁ hasRaw₁ raw₁)
    generalize hw : incrementMetricsWrite inMemory₁ hasRaw₁ raw₁ = w at hrt ⊢
    show metricsLe w (incrementMetricsWrite inMemory₂ hasRaw₂ (some (metricsStateToJson w)))
    unfold metricsLe incrementMetricsWrite mergeMetricsState
    rw [hrt]
    cases hasRaw₂ <;> simp

/-- C3, counterexample to the claim as stated.  `/fleet/health` is not the
sole read path where upstream failure is visible to the caller: on a
GET `/changelog` with a token and a cold cache, a rejected upstream
`fetch` propagates out of the handler (nothing catches it), while the
same rejection on `/fleet/health` with a cached snapshot is recovered to
a 200 — so upstream failure is caller-visible on a second read path. -/
theorem upstream_failure_visible_on_changelog :
    changelogResponse true "2026-03-01T00:00:00.000Z" none .threw = .error () ∧
    changelogResponse true "2026-03-01T00:00:00.000Z" (some (.arr [])) .threw
      = .ok (200, []) ∧
    (fleetHealthResponse 0
        (some { status := .GREEN, repos := [], checkedAt := some 0 }) .threw).status
      = 200 := by
  refine ⟨rfl, rfl, by decide⟩

/-- C3, amended.  On a `/fleet/health` GET: a parseable cached snapshot
less than 5 minutes old is returned without recomputation; when the
snapshot is absent or not fresh and the aggregation throws, the cached
snapshot is served regardless of its own freshness; the response is 503
exactly when the aggregation throws and no parseable cached snapshot
exists — the sole read path where the worker itself surfaces upstream
failure as an error response.  It is not the sole path where upstream
failure is visible to the caller: the `/changelog` read (with a token and
a cold cache) propagates a rejected upstream fetch as an uncaught
exception instead of mapping it to any status — its only responses are
200s. -/
theorem fleet_health_read_path_amended
    (now : ℤ) (cached : Option FleetHealthPayload) (upstream : FleetHealthUpstream)
    (hasToken : Bool) (nowIso : String) (cachedRaw : Option Json)
    (chUpstream : ChangelogUpstream) :
    (∀ p, cached = some p → isFleetHealthFresh now p = true →
        fleetHealthResponse now cached upstream
          = { status := 200, body := some p, recomputed := false }) ∧
    (∀ p, cached = some p → isFleetHealthFresh now p = false → upstream = .threw →
        fleetHealthResponse now cached upstream
          = { status := 200, body := some p, recomputed := true }) ∧
    (cached = none → upstream = .threw →
        fleetHealthResponse now cached upstream
          = { status := 503, body := none, recomputed := true }) ∧
    ((fleetHealthResponse now cached upstream).status = 503
        ↔ cached = none ∧ upstream = .threw) ∧
    (parseChangelogEntries nowIso cachedRaw = none → chUpstream = .threw →
        changelogResponse true nowIso cachedRaw chUpstream = .error ()) ∧
    (∀ (status : ℕ) (commits : List ChangelogEntry),
        changelogResponse hasToken nowIso cachedRaw chUpstream = .ok (status, commits) →
          status = 200) := by
  obtain ⟨h1, h2, h3, h4⟩ := fleet_health_read_path now cached upstream
  refine ⟨h1, h2, h3, h4, ?_, ?_⟩
  · intro hcold hthrew
    subst hthrew
    simp [changelogResponse, loadChangelog, hcold]
  · intro status commits h
    cases hasToken with
    | false =>
      simp [changelogResponse] at h
      exact h.1.symm
    | true =>
      cases hlc : loadChangelog nowIso cachedRaw chUpstream with
      | ok okCommits =>
        simp [changelogResponse, hlc] at h
        exact h.1.symm
      | error e =>
        simp [changelogResponse, hlc] at h

/-- C3, witness: at a cold changelog cache a thrown upstream fetch
propagates to the caller, while a fresh cached fleet-health snapshot is
served without recomputation despite a throwing aggregation. -/
theorem fleet_health_read_path_amended_witness :
    parseChangelogEntries "2026-03-01T00:00:00.000Z" none = none ∧
    changelogResponse true "2026-03-01T00:00:00.000Z" none .threw = .error () ∧
    isFleetHealthFresh 100 { status := .GREEN, repos := [], checkedAt := some 0 } = true ∧
    fleetHealthResponse 100
        (some { status := .GREEN, repos := [], checkedAt := some 0 }) .threw
      = { status := 200
          body := some { status := .GREEN, repos := [], checkedAt := some 0 }
          recomputed := false } :=
  ⟨rfl,
    (fleet_health_read_path_amended 100
        (some { status := .GREEN, repos := [], checkedAt := some 0 }) .threw
        true "2026-03-01T00:00:00.000Z" none .threw).2.2.2.2.1 rfl rfl,
    by decide,
    (fleet_health_read_path_amended 100
        (some { status := .GREEN, repos := [], checkedAt := some 0 }) .threw
        true "2026-03-01T00:00:00.000Z" none .threw).1
      { status := .GREEN, repos := [], checkedAt := some 0 } rfl (by decide)⟩

end Clanka
